import Mathlib

set_option linter.unreachableTactic false
set_option linter.unusedTactic false

/-!
Verification of the grip logging library core: the priority/threshold
model, the lazy message composers of message/function.go, the conversion
function of the message package, the Grip logger of logging/logger.go and
the annotating sender of send/annotating.go.

Mutable Go structs are embedded as Lean structures with explicit state
passing: every method that mutates its receiver returns the new state.
Methods that may dereference a nil function in Go (a runtime panic)
return an Option, with none standing for the panic.  A stored
zero-argument producer function (func() Fields, func() Composer,
func() error) is determined by the single value it returns, so it is
embedded by that value (Unit → A and A are isomorphic); "invoking the
function" is made observable by a Nat counter carried by every
lazy-composer method, incremented exactly where the Go source applies
the stored function.
-/

namespace Grip

/-- Modelled from the spec: the level package is not part of the analysed
sources.  Priorities form a fixed ordered set
Emergency > Alert > Critical > Error > Warning > Notice > Info > Debug > Trace
with a distinguished Invalid value below all of them. -/
inductive Priority where
  | Invalid
  | Trace
  | Debug
  | Info
  | Notice
  | Warning
  | Error
  | Critical
  | Alert
  | Emergency
deriving DecidableEq, Repr

/-- Modelled from the spec: the numeric rank of a priority, used for
threshold comparisons. -/
def Priority.toNat : Priority → Nat
  | .Invalid => 0
  | .Trace => 20
  | .Debug => 30
  | .Info => 40
  | .Notice => 50
  | .Warning => 60
  | .Error => 70
  | .Critical => 80
  | .Alert => 90
  | .Emergency => 100

/-- Modelled from the spec: a valid priority is one of the named levels;
Invalid is the only non-valid value. -/
def Priority.IsValid : Priority → Bool
  | .Invalid => false
  | _ => true

/-- Modelled from the spec: paired default/threshold priority
configuration carried by every sender. -/
structure LevelInfo where
  Default : Priority
  Threshold : Priority
deriving DecidableEq, Repr

/-- Modelled from the spec: a LevelInfo is valid when both fields are
independently valid priorities. -/
def LevelInfo.Valid (l : LevelInfo) : Bool :=
  l.Default.IsValid && l.Threshold.IsValid

/-- Fields (a Go map from string keys to values) is embedded as an
association list; values are embedded as strings, which the analysed
claims never inspect beyond equality. -/
abbrev Fields := List (String × String)

/-- Whether a key is already present in a field map. -/
def fieldsHasKey (fs : Fields) (k : String) : Bool :=
  fs.any (fun kv => kv.1 == k)

/-- The closed set of composer shapes the claims need, mirroring the
concrete message types reachable from message/function.go and the
conversion function: plain string messages, field maps (NewFields and
NewSimpleFields construct distinct types in the source), error messages,
and the three lazy producer wrappers of message/function.go.  Each lazy
wrapper holds its wrapped producer (none embeds a nil Go function;
some v embeds a non-nil function that returns v when invoked), the cached
resolved composer (none embeds a nil cache) and its priority.  A
composer-producer function may return a nil composer, hence
Option (Option Composer); an error-producer may return a nil error,
hence Option (Option String). -/
inductive Composer where
  | stringMessage (level : Priority) (content : String) (ctx : Fields)
  | fieldMessage (level : Priority) (fields : Fields)
  | simpleFieldMessage (level : Priority) (fields : Fields)
  | errorMessage (level : Priority) (err : Option String) (ctx : Fields)
  | fieldsProducer (level : Priority) (fp : Option Fields) (cached : Option Composer)
  | composerProducer (level : Priority) (cp : Option (Option Composer)) (cached : Option Composer)
  | errorProducer (level : Priority) (ep : Option (Option String)) (cached : Option Composer)

/-- Modelled from the spec: NewDefaultMessage builds a plain string
message at the given priority. -/
def NewDefaultMessage (p : Priority) (s : String) : Composer :=
  .stringMessage p s []

/-- Modelled from the spec: NewFields builds a structured field-map
message at the given priority. -/
def NewFields (p : Priority) (fs : Fields) : Composer :=
  .fieldMessage p fs

/-- Modelled from the spec: NewSimpleFields builds the simple variant of
the structured field-map message at the given priority. -/
def NewSimpleFields (p : Priority) (fs : Fields) : Composer :=
  .simpleFieldMessage p fs

/-- Modelled from the spec: NewErrorMessage wraps an error value (none
embeds a nil error) at the given priority. -/
def NewErrorMessage (p : Priority) (e : Option String) : Composer :=
  .errorMessage p e []

/-- NewFieldsProducerMessage from message/function.go: stores the
producer and the priority; the cache starts empty and the producer is
not invoked. -/
def NewFieldsProducerMessage (p : Priority) (fp : Option Fields) : Composer :=
  .fieldsProducer p fp none

/-- MakeFieldsProducerMessage from message/function.go: as the New
variant but with the zero-value (Invalid) priority. -/
def MakeFieldsProducerMessage (fp : Option Fields) : Composer :=
  .fieldsProducer .Invalid fp none

/-- NewComposerProducerMessage from message/function.go. -/
def NewComposerProducerMessage (p : Priority) (cp : Option (Option Composer)) : Composer :=
  .composerProducer p cp none

/-- MakeComposerProducerMessage from message/function.go: zero-value
(Invalid) priority. -/
def MakeComposerProducerMessage (cp : Option (Option Composer)) : Composer :=
  .composerProducer .Invalid cp none

/-- NewErrorProducerMessage from message/function.go. -/
def NewErrorProducerMessage (p : Priority) (ep : Option (Option String)) : Composer :=
  .errorProducer p ep none

/-- MakeErrorProducerMessage from message/function.go: zero-value
(Invalid) priority. -/
def MakeErrorProducerMessage (ep : Option (Option String)) : Composer :=
  .errorProducer .Invalid ep none

/-- The Priority() accessor: every variant returns its stored level. -/
def Composer.priorityOf : Composer → Priority
  | .stringMessage p _ _ => p
  | .fieldMessage p _ => p
  | .simpleFieldMessage p _ => p
  | .errorMessage p _ _ => p
  | .fieldsProducer p _ _ => p
  | .composerProducer p _ _ => p
  | .errorProducer p _ _ => p

/-- SetPriority: rejects Invalid with an error; otherwise stores the new
level, and on an already-resolved lazy wrapper also propagates the new
level to the cached composer, as in message/function.go (the concrete
variants follow the spec for the base message types). Returns the new
state and the error, if any. -/
def Composer.setPriority : Composer → Priority → Composer × Option String
  | .stringMessage p0 s ctx, p =>
    if p.IsValid then (.stringMessage p s ctx, none)
    else (.stringMessage p0 s ctx, some "invalid level")
  | .fieldMessage p0 fs, p =>
    if p.IsValid then (.fieldMessage p fs, none)
    else (.fieldMessage p0 fs, some "invalid level")
  | .simpleFieldMessage p0 fs, p =>
    if p.IsValid then (.simpleFieldMessage p fs, none)
    else (.simpleFieldMessage p0 fs, some "invalid level")
  | .errorMessage p0 e ctx, p =>
    if p.IsValid then (.errorMessage p e ctx, none)
    else (.errorMessage p0 e ctx, some "invalid level")
  | .fieldsProducer p0 fp none, p =>
    if p.IsValid then (.fieldsProducer p fp none, none)
    else (.fieldsProducer p0 fp none, some "invalid level")
  | .fieldsProducer p0 fp (some c), p =>
    if p.IsValid then
      let r := c.setPriority p
      (.fieldsProducer p fp (some r.1), r.2)
    else (.fieldsProducer p0 fp (some c), some "invalid level")
  | .composerProducer p0 cp none, p =>
    if p.IsValid then (.composerProducer p cp none, none)
    else (.composerProducer p0 cp none, some "invalid level")
  | .composerProducer p0 cp (some c), p =>
    if p.IsValid then
      let r := c.setPriority p
      (.composerProducer p cp (some r.1), r.2)
    else (.composerProducer p0 cp (some c), some "invalid level")
  | .errorProducer p0 ep none, p =>
    if p.IsValid then (.errorProducer p ep none, none)
    else (.errorProducer p0 ep none, some "invalid level")
  | .errorProducer p0 ep (some c), p =>
    if p.IsValid then
      let r := c.setPriority p
      (.errorProducer p ep (some r.1), r.2)
    else (.errorProducer p0 ep (some c), some "invalid level")

/-- Nesting depth of a composer, counting through both the cache and the
value a stored composer-producer would return; the termination measure
for the resolving accessors. -/
def Composer.depth : Composer → Nat
  | .stringMessage _ _ _ => 0
  | .fieldMessage _ _ => 0
  | .simpleFieldMessage _ _ => 0
  | .errorMessage _ _ _ => 0
  | .fieldsProducer _ _ none => 1
  | .fieldsProducer _ _ (some c) => 1 + c.depth
  | .composerProducer _ none none => 1
  | .composerProducer _ (some none) none => 1
  | .composerProducer _ (some (some c)) none => 1 + c.depth
  | .composerProducer _ none (some c0) => 1 + c0.depth
  | .composerProducer _ (some none) (some c0) => 1 + c0.depth
  | .composerProducer _ (some (some c)) (some c0) => 1 + c.depth + c0.depth
  | .errorProducer _ _ none => 1
  | .errorProducer _ _ (some c) => 1 + c.depth

theorem depth_setPriority (c : Composer) (p : Priority) :
    (c.setPriority p).1.depth = c.depth := by
  match c with
  | .stringMessage p0 s ctx =>
    by_cases h : p.IsValid <;> simp [Composer.setPriority, h, Composer.depth]
  | .fieldMessage p0 fs =>
    by_cases h : p.IsValid <;> simp [Composer.setPriority, h, Composer.depth]
  | .simpleFieldMessage p0 fs =>
    by_cases h : p.IsValid <;> simp [Composer.setPriority, h, Composer.depth]
  | .errorMessage p0 e ctx =>
    by_cases h : p.IsValid <;> simp [Composer.setPriority, h, Composer.depth]
  | .fieldsProducer p0 fp none =>
    by_cases h : p.IsValid <;> simp [Composer.setPriority, h, Composer.depth]
  | .fieldsProducer p0 fp (some c) =>
    by_cases h : p.IsValid <;>
      simp [Composer.setPriority, h, Composer.depth, depth_setPriority c p]
  | .composerProducer p0 cp none =>
    by_cases h : p.IsValid <;>
      (cases cp with
       | none => simp [Composer.setPriority, h, Composer.depth]
       | some v => cases v <;> simp [Composer.setPriority, h, Composer.depth])
  | .composerProducer p0 cp (some c) =>
    by_cases h : p.IsValid <;>
      (cases cp with
       | none =>
          simp [Composer.setPriority, h, Composer.depth, depth_setPriority c p]
       | some v =>
          cases v <;>
            simp [Composer.setPriority, h, Composer.depth, depth_setPriority c p])
  | .errorProducer p0 ep none =>
    by_cases h : p.IsValid <;> simp [Composer.setPriority, h, Composer.depth]
  | .errorProducer p0 ep (some c) =>
    by_cases h : p.IsValid <;>
      simp [Composer.setPriority, h, Composer.depth, depth_setPriority c p]

theorem priorityOf_setPriority (c : Composer) (p : Priority) (h : p.IsValid = true) :
    (c.setPriority p).1.priorityOf = p := by
  match c with
  | .stringMessage p0 s ctx => simp [Composer.setPriority, h, Composer.priorityOf]
  | .fieldMessage p0 fs => simp [Composer.setPriority, h, Composer.priorityOf]
  | .simpleFieldMessage p0 fs => simp [Composer.setPriority, h, Composer.priorityOf]
  | .errorMessage p0 e ctx => simp [Composer.setPriority, h, Composer.priorityOf]
  | .fieldsProducer p0 fp none => simp [Composer.setPriority, h, Composer.priorityOf]
  | .fieldsProducer p0 fp (some c) => simp [Composer.setPriority, h, Composer.priorityOf]
  | .composerProducer p0 cp none => simp [Composer.setPriority, h, Composer.priorityOf]
  | .composerProducer p0 cp (some c) => simp [Composer.setPriority, h, Composer.priorityOf]
  | .errorProducer p0 ep none => simp [Composer.setPriority, h, Composer.priorityOf]
  | .errorProducer p0 ep (some c) => simp [Composer.setPriority, h, Composer.priorityOf]

theorem setPriority_invalid (c : Composer) (p : Priority) (h : p.IsValid = false) :
    c.setPriority p = (c, some "invalid level") := by
  match c with
  | .stringMessage p0 s ctx => simp [Composer.setPriority, h]
  | .fieldMessage p0 fs => simp [Composer.setPriority, h]
  | .simpleFieldMessage p0 fs => simp [Composer.setPriority, h]
  | .errorMessage p0 e ctx => simp [Composer.setPriority, h]
  | .fieldsProducer p0 fp none => simp [Composer.setPriority, h]
  | .fieldsProducer p0 fp (some c) => simp [Composer.setPriority, h]
  | .composerProducer p0 cp none => simp [Composer.setPriority, h]
  | .composerProducer p0 cp (some c) => simp [Composer.setPriority, h]
  | .errorProducer p0 ep none => simp [Composer.setPriority, h]
  | .errorProducer p0 ep (some c) => simp [Composer.setPriority, h]

/-- Modelled from the spec: the display rendering of a structured field
map (the exact textual format is irrelevant to every claim). -/
def renderFields (fs : Fields) : String :=
  String.intercalate " " (fs.map (fun kv => kv.1 ++ "=" ++ kv.2))

/-- Modelled from the spec: the error text reported when an annotation
key is already present on a composer. -/
def dupKeyErr (k : String) : String :=
  "key " ++ k ++ " already exists"

/-- Modelled from the spec: the display string of an error message (the
error text, or empty for a nil error). -/
def errString : Option String → String
  | some s => s
  | none => ""

/-- resolve from message/function.go, for each of the three lazy
wrappers (a no-op on the concrete variants, which have no resolve
method).  fieldsProducerMessage.resolve guards a nil producer and caches
NewFields on the wrapper level; composerProducerMessage.resolve invokes
the producer unguarded (a nil producer is a Go nil-function call: none),
replaces a nil result with NewSimpleFields at the wrapper level and
otherwise calls SetPriority with the wrapper level on the produced
composer, discarding the error; errorProducerMessage.resolve invokes the
producer unguarded and caches NewErrorMessage at the wrapper level.
The Nat counts invocations of the wrapped producer. -/
def Composer.resolveM : Composer → Option (Composer × Nat)
  | .fieldsProducer p none none =>
    some (.fieldsProducer p none (some (NewFields p [])), 0)
  | .fieldsProducer p (some v) none =>
    some (.fieldsProducer p (some v) (some (NewFields p v)), 1)
  | .fieldsProducer p fp (some c) => some (.fieldsProducer p fp (some c), 0)
  | .composerProducer _ none none => none
  | .composerProducer p (some none) none =>
    some (.composerProducer p (some none) (some (NewSimpleFields p [])), 1)
  | .composerProducer p (some (some c)) none =>
    some (.composerProducer p (some (some c)) (some (c.setPriority p).1), 1)
  | .composerProducer p cp (some c) => some (.composerProducer p cp (some c), 0)
  | .errorProducer _ none none => none
  | .errorProducer p (some v) none =>
    some (.errorProducer p (some v) (some (NewErrorMessage p v)), 1)
  | .errorProducer p ep (some c) => some (.errorProducer p ep (some c), 0)
  | c => some (c, 0)

theorem depth_cached_lt (p : Priority) (cp : Option (Option Composer)) (c : Composer) :
    c.depth < (Composer.composerProducer p cp (some c)).depth := by
  cases cp with
  | none => simp [Composer.depth] <;> omega
  | some v =>
    cases v with
    | none => simp [Composer.depth] <;> omega
    | some c2 => simp [Composer.depth] <;> omega

/-- The String() method of every composer shape.  On the lazy wrappers
the source calls resolve and then delegates to the cached composer; the
resolve steps are inlined here case by case (they match resolveM).
Returns the rendered string, the new state and the number of
producer invocations performed by this composer. -/
def Composer.stringM : Composer → Option (String × Composer × Nat)
  | .stringMessage p s ctx => some (s, .stringMessage p s ctx, 0)
  | .fieldMessage p fs => some (renderFields fs, .fieldMessage p fs, 0)
  | .simpleFieldMessage p fs => some (renderFields fs, .simpleFieldMessage p fs, 0)
  | .errorMessage p e ctx => some (errString e, .errorMessage p e ctx, 0)
  | .fieldsProducer p fp (some c) =>
    match c.stringM with
    | none => none
    | some (s, c1, _) => some (s, .fieldsProducer p fp (some c1), 0)
  | .fieldsProducer p none none =>
    match (NewFields p ([] : Fields)).stringM with
    | none => none
    | some (s, c1, _) => some (s, .fieldsProducer p none (some c1), 0)
  | .fieldsProducer p (some v) none =>
    match (NewFields p v).stringM with
    | none => none
    | some (s, c1, _) => some (s, .fieldsProducer p (some v) (some c1), 1)
  | .composerProducer _ none none => none
  | .composerProducer p (some none) none =>
    match (NewSimpleFields p ([] : Fields)).stringM with
    | none => none
    | some (s, c1, _) => some (s, .composerProducer p (some none) (some c1), 1)
  | .composerProducer p (some (some c)) none =>
    match (c.setPriority p).1.stringM with
    | none => none
    | some (s, c1, _) => some (s, .composerProducer p (some (some c)) (some c1), 1)
  | .composerProducer p cp (some c) =>
    match c.stringM with
    | none => none
    | some (s, c1, _) => some (s, .composerProducer p cp (some c1), 0)
  | .errorProducer _ none none => none
  | .errorProducer p (some v) none =>
    match (NewErrorMessage p v).stringM with
    | none => none
    | some (s, c1, _) => some (s, .errorProducer p (some v) (some c1), 1)
  | .errorProducer p ep (some c) =>
    match c.stringM with
    | none => none
    | some (s, c1, _) => some (s, .errorProducer p ep (some c1), 0)
termination_by c => c.depth
decreasing_by
  all_goals first
  | apply depth_cached_lt
  | (simp [Composer.depth, NewFields, NewSimpleFields, NewErrorMessage,
       depth_setPriority] <;> omega)

/-- The structured ("raw") representation of a composer, distinct from
its string form. -/
inductive RawRep where
  | ofString (s : String) (ctx : Fields)
  | ofFields (fs : Fields)
  | ofError (err : Option String) (ctx : Fields)
deriving DecidableEq, Repr

/-- The Raw() method of every composer shape; on the lazy wrappers the
source calls resolve (inlined here, matching resolveM) and delegates to
the cached composer. -/
def Composer.rawM : Composer → Option (RawRep × Composer × Nat)
  | .stringMessage p s ctx => some (.ofString s ctx, .stringMessage p s ctx, 0)
  | .fieldMessage p fs => some (.ofFields fs, .fieldMessage p fs, 0)
  | .simpleFieldMessage p fs => some (.ofFields fs, .simpleFieldMessage p fs, 0)
  | .errorMessage p e ctx => some (.ofError e ctx, .errorMessage p e ctx, 0)
  | .fieldsProducer p fp (some c) =>
    match c.rawM with
    | none => none
    | some (r, c1, _) => some (r, .fieldsProducer p fp (some c1), 0)
  | .fieldsProducer p none none =>
    match (NewFields p ([] : Fields)).rawM with
    | none => none
    | some (r, c1, _) => some (r, .fieldsProducer p none (some c1), 0)
  | .fieldsProducer p (some v) none =>
    match (NewFields p v).rawM with
    | none => none
    | some (r, c1, _) => some (r, .fieldsProducer p (some v) (some c1), 1)
  | .composerProducer _ none none => none
  | .composerProducer p (some none) none =>
    match (NewSimpleFields p ([] : Fields)).rawM with
    | none => none
    | some (r, c1, _) => some (r, .composerProducer p (some none) (some c1), 1)
  | .composerProducer p (some (some c)) none =>
    match (c.setPriority p).1.rawM with
    | none => none
    | some (r, c1, _) => some (r, .composerProducer p (some (some c)) (some c1), 1)
  | .composerProducer p cp (some c) =>
    match c.rawM with
    | none => none
    | some (r, c1, _) => some (r, .composerProducer p cp (some c1), 0)
  | .errorProducer _ none none => none
  | .errorProducer p (some v) none =>
    match (NewErrorMessage p v).rawM with
    | none => none
    | some (r, c1, _) => some (r, .errorProducer p (some v) (some c1), 1)
  | .errorProducer p ep (some c) =>
    match c.rawM with
    | none => none
    | some (r, c1, _) => some (r, .errorProducer p ep (some c1), 0)
termination_by c => c.depth
decreasing_by
  all_goals first
  | apply depth_cached_lt
  | (simp [Composer.depth, NewFields, NewSimpleFields, NewErrorMessage,
       depth_setPriority] <;> omega)

/-- The Loggable() method.  Each lazy wrapper first reports false when
its producer is nil, without resolving; otherwise it resolves (inlined,
matching resolveM) and delegates to the cached composer.  The concrete
variants follow the spec: a string message is loggable when non-empty, a
field map when non-empty, an error message when the error is non-nil. -/
def Composer.loggableM : Composer → Option (Bool × Composer × Nat)
  | .stringMessage p s ctx => some (!(s == ""), .stringMessage p s ctx, 0)
  | .fieldMessage p fs => some (!fs.isEmpty, .fieldMessage p fs, 0)
  | .simpleFieldMessage p fs => some (!fs.isEmpty, .simpleFieldMessage p fs, 0)
  | .errorMessage p e ctx => some (e.isSome, .errorMessage p e ctx, 0)
  | .fieldsProducer p none cached => some (false, .fieldsProducer p none cached, 0)
  | .fieldsProducer p (some v) (some c) =>
    match c.loggableM with
    | none => none
    | some (b, c1, _) => some (b, .fieldsProducer p (some v) (some c1), 0)
  | .fieldsProducer p (some v) none =>
    match (NewFields p v).loggableM with
    | none => none
    | some (b, c1, _) => some (b, .fieldsProducer p (some v) (some c1), 1)
  | .composerProducer p none cached => some (false, .composerProducer p none cached, 0)
  | .composerProducer p (some v) (some c) =>
    match c.loggableM with
    | none => none
    | some (b, c1, _) => some (b, .composerProducer p (some v) (some c1), 0)
  | .composerProducer p (some none) none =>
    match (NewSimpleFields p ([] : Fields)).loggableM with
    | none => none
    | some (b, c1, _) => some (b, .composerProducer p (some none) (some c1), 1)
  | .composerProducer p (some (some c)) none =>
    match (c.setPriority p).1.loggableM with
    | none => none
    | some (b, c1, _) => some (b, .composerProducer p (some (some c)) (some c1), 1)
  | .errorProducer p none cached => some (false, .errorProducer p none cached, 0)
  | .errorProducer p (some v) (some c) =>
    match c.loggableM with
    | none => none
    | some (b, c1, _) => some (b, .errorProducer p (some v) (some c1), 0)
  | .errorProducer p (some v) none =>
    match (NewErrorMessage p v).loggableM with
    | none => none
    | some (b, c1, _) => some (b, .errorProducer p (some v) (some c1), 1)
termination_by c => c.depth
decreasing_by
  all_goals first
  | apply depth_cached_lt
  | (simp [Composer.depth, NewFields, NewSimpleFields, NewErrorMessage,
       depth_setPriority] <;> omega)

/-- The Annotate(key, value) method.  The concrete variants follow the
spec: annotating with an existing key is an error, otherwise the pair is
added to the structured form.  The lazy wrappers resolve (inlined,
matching resolveM) and delegate to the cached composer.  Returns the
annotation error, if any, with the new state and invocation count. -/
def Composer.annotateM : Composer → String → String → Option (Option String × Composer × Nat)
  | .stringMessage p s ctx, k, v =>
    if fieldsHasKey ctx k then some (some (dupKeyErr k), .stringMessage p s ctx, 0)
    else some (none, .stringMessage p s (ctx ++ [(k, v)]), 0)
  | .fieldMessage p fs, k, v =>
    if fieldsHasKey fs k then some (some (dupKeyErr k), .fieldMessage p fs, 0)
    else some (none, .fieldMessage p (fs ++ [(k, v)]), 0)
  | .simpleFieldMessage p fs, k, v =>
    if fieldsHasKey fs k then some (some (dupKeyErr k), .simpleFieldMessage p fs, 0)
    else some (none, .simpleFieldMessage p (fs ++ [(k, v)]), 0)
  | .errorMessage p e ctx, k, v =>
    if fieldsHasKey ctx k then some (some (dupKeyErr k), .errorMessage p e ctx, 0)
    else some (none, .errorMessage p e (ctx ++ [(k, v)]), 0)
  | .fieldsProducer p fp (some c), k, v =>
    match c.annotateM k v with
    | none => none
    | some (e, c1, _) => some (e, .fieldsProducer p fp (some c1), 0)
  | .fieldsProducer p none none, k, v =>
    match (NewFields p ([] : Fields)).annotateM k v with
    | none => none
    | some (e, c1, _) => some (e, .fieldsProducer p none (some c1), 0)
  | .fieldsProducer p (some w) none, k, v =>
    match (NewFields p w).annotateM k v with
    | none => none
    | some (e, c1, _) => some (e, .fieldsProducer p (some w) (some c1), 1)
  | .composerProducer _ none none, _, _ => none
  | .composerProducer p (some none) none, k, v =>
    match (NewSimpleFields p ([] : Fields)).annotateM k v with
    | none => none
    | some (e, c1, _) => some (e, .composerProducer p (some none) (some c1), 1)
  | .composerProducer p (some (some c)) none, k, v =>
    match ((c.setPriority p).1).annotateM k v with
    | none => none
    | some (e, c1, _) => some (e, .composerProducer p (some (some c)) (some c1), 1)
  | .composerProducer p cp (some c), k, v =>
    match c.annotateM k v with
    | none => none
    | some (e, c1, _) => some (e, .composerProducer p cp (some c1), 0)
  | .errorProducer _ none none, _, _ => none
  | .errorProducer p (some w) none, k, v =>
    match (NewErrorMessage p w).annotateM k v with
    | none => none
    | some (e, c1, _) => some (e, .errorProducer p (some w) (some c1), 1)
  | .errorProducer p ep (some c), k, v =>
    match c.annotateM k v with
    | none => none
    | some (e, c1, _) => some (e, .errorProducer p ep (some c1), 0)
termination_by c _ _ => c.depth
decreasing_by
  all_goals first
  | apply depth_cached_lt
  | (simp [Composer.depth, NewFields, NewSimpleFields, NewErrorMessage,
       depth_setPriority] <;> omega)

/-- Modelled from the spec: the ShouldLog decision of the level package
(not part of the analysed sources), as a function of the loggability the
message reports and the priority it carries.  Compute the effective
priority, substituting the configured Default when the message priority
is Invalid; reject a not-loggable message; accept Emergency against any
threshold; otherwise accept exactly when the effective priority is not
below the Threshold. -/
def LevelInfo.ShouldLog (l : LevelInfo) (loggable : Bool) (msgPriority : Priority) : Bool :=
  let eff := if msgPriority = Priority.Invalid then l.Default else msgPriority
  if !loggable then false
  else if eff = Priority.Emergency then true
  else decide (l.Threshold.toNat ≤ eff.toNat)

/-- ShouldLog applied to a composer: reads the priority and asks the
composer for its loggability (which may resolve a lazy wrapper, hence
the state passing, and may hit a nil producer, hence the Option). -/
def LevelInfo.ShouldLogC (l : LevelInfo) (m : Composer) : Option (Bool × Composer × Nat) :=
  match m.loggableM with
  | none => none
  | some (b, m1, n) => some (l.ShouldLog b m.priorityOf, m1, n)

/-- The input shapes of the conversion function that the claims need,
from the type switch of the message package conversion: an existing
Composer, a string, an error (none embeds a nil error value), the three
producer-function shapes (none embeds a nil function; some v a function
returning v), and a field map. -/
inductive Input where
  | composer (c : Composer)
  | str (s : String)
  | err (e : Option String)
  | fieldsFn (f : Option Fields)
  | composerFn (f : Option (Option Composer))
  | errorFn (f : Option (Option String))
  | fields (fs : Fields)

/-- convert from the message package, restricted to the input shapes
above; each case is the source case for that shape.  For a Composer
input the priority is set when overRideLevel is true or the current
priority differs from Invalid, and the SetPriority error is discarded. -/
def convert (p : Priority) (m : Input) (overRideLevel : Bool) : Composer :=
  match m with
  | .composer c =>
    if overRideLevel || !(c.priorityOf = Priority.Invalid) then (c.setPriority p).1 else c
  | .str s => NewDefaultMessage p s
  | .err e => NewErrorMessage p e
  | .fieldsFn f => NewFieldsProducerMessage p f
  | .composerFn f => NewComposerProducerMessage p f
  | .errorFn f => NewErrorProducerMessage p f
  | .fields fs => NewFields p fs

/-- ConvertToComposer from the message package: the override-priority
conversion policy. -/
def ConvertToComposer (p : Priority) (m : Input) : Composer :=
  convert p m true

/-- ConvertToComposerWithLevel from the message package: the with-level
conversion policy. -/
def ConvertToComposerWithLevel (p : Priority) (m : Input) : Composer :=
  convert p m false

/-- Modelled from the spec: the state of a backend sender as the core
observes it through the Sender contract.  The id stands for the Go
reference identity of the sender; closeCalls counts Close() calls;
closeErr, when some, is the failure Close() reports; sent records the
composers handed to Send in order. -/
structure Sender where
  id : Nat
  name : String
  levelInfo : LevelInfo
  closeCalls : Nat
  closeErr : Option String
  sent : List Composer

/-- Modelled from the spec: Level() returns the configured LevelInfo. -/
def Sender.Level (s : Sender) : LevelInfo := s.levelInfo

/-- Modelled from the spec: SetLevel rejects an invalid LevelInfo and
otherwise installs it. -/
def Sender.SetLevel (s : Sender) (l : LevelInfo) : Option String × Sender :=
  if l.Valid then (none, { s with levelInfo := l })
  else (some "level settings are not valid", s)

/-- Modelled from the spec: SetName installs the new name. -/
def Sender.SetName (s : Sender) (n : String) : Sender := { s with name := n }

/-- Modelled from the spec: Close releases backend resources; the call
is recorded and reports the backend-defined error, if any. -/
def Sender.Close (s : Sender) : Option String × Sender :=
  (s.closeErr, { s with closeCalls := s.closeCalls + 1 })

/-- Modelled from the spec: the hand-off of a composer into the
sender's backend-specific Send, recorded in order. -/
def Sender.send (s : Sender) (m : Composer) : Sender :=
  { s with sent := s.sent ++ [m] }

/-- The Grip logger state from logging/logger.go: the current sender
and the default priority (the RWMutex is represented separately by the
lock-mode table below). -/
structure Grip where
  impl : Sender
  defaultLevel : Priority

/-- The outcome of Grip.SetSender: the returned error, the logger state
after the call, and the final state of the sender that was current when
the call began (so that calls on it during the swap stay observable
after it is replaced). -/
structure SetSenderOutcome where
  err : Option String
  grip : Grip
  old : Sender

/-- Grip.SetSender from logging/logger.go: a nil sender is a
configuration error; otherwise copy the current sender's LevelInfo onto
the new sender (returning its error, if any), close the current sender
(returning its error, if any), copy the current sender's name onto the
new sender, and adopt it. -/
def Grip.SetSender (g : Grip) (s? : Option Sender) : SetSenderOutcome :=
  match s? with
  | none => ⟨some "cannot set the sender to nil", g, g.impl⟩
  | some s =>
    match s.SetLevel g.impl.Level with
    | (some e, _) => ⟨some e, g, g.impl⟩
    | (none, s1) =>
      match g.impl.Close with
      | (some e, implAfter) => ⟨some e, { g with impl := implAfter }, implAfter⟩
      | (none, implAfter) =>
        let s2 := s1.SetName implAfter.name
        ⟨none, { g with impl := s2 }, implAfter⟩

/-- How a dispatch through sendPanic or sendFatal ends: a normal
return, a panic, or a process exit.  The panic payload (the rendered
message) is not modelled; no claim inspects it. -/
inductive AbortOutcome where
  | returned
  | panicked
  | exited
deriving DecidableEq, Repr

/-- Grip.sendPanic from logging/logger.go: if the current sender's level
accepts the message, hand the message to the sender's Send and then
panic; otherwise return normally without sending.  The returned Grip
carries the sender state after the call, so a recorded hand-off together
with a panicked outcome expresses that the message reached the sender
before the abort. -/
def Grip.sendPanic (g : Grip) (m : Composer) : Option (AbortOutcome × Grip) :=
  match g.impl.Level.ShouldLogC m with
  | none => none
  | some (ok, m1, _) =>
    if ok then some (.panicked, { g with impl := g.impl.send m1 })
    else some (.returned, g)

/-- Grip.sendFatal from logging/logger.go: as sendPanic with a process
exit instead of a panic. -/
def Grip.sendFatal (g : Grip) (m : Composer) : Option (AbortOutcome × Grip) :=
  match g.impl.Level.ShouldLogC m with
  | none => none
  | some (ok, m1, _) =>
    if ok then some (.exited, { g with impl := g.impl.send m1 })
    else some (.returned, g)

/-- Grip.EmergencyPanic from logging/logger.go: convert at Emergency
priority and dispatch through sendPanic. -/
def Grip.EmergencyPanic (g : Grip) (msg : Input) : Option (AbortOutcome × Grip) :=
  g.sendPanic (ConvertToComposer .Emergency msg)

/-- Grip.EmergencyFatal from logging/logger.go: convert at Emergency
priority and dispatch through sendFatal. -/
def Grip.EmergencyFatal (g : Grip) (msg : Input) : Option (AbortOutcome × Grip) :=
  g.sendFatal (ConvertToComposer .Emergency msg)

/-- The locking entry points of the Grip logger. -/
inductive GripMethod where
  | mSend
  | mName
  | mGetSender
  | mSetSender
  | mSetName
  | mSetLevel
  | mSendPanic
  | mSendFatal
deriving DecidableEq, Repr

/-- Which side of the reader/writer lock an operation takes. -/
inductive LockMode where
  | shared
  | exclusive
deriving DecidableEq, Repr

/-- The lock each Grip method of logging/logger.go acquires on entry,
transcribed from the source: Send, Name and GetSender call RLock;
SetName and SetLevel also call RLock; sendPanic and sendFatal call
RLock; only SetSender calls Lock. -/
def gripLockMode : GripMethod → LockMode
  | .mSend => .shared
  | .mName => .shared
  | .mGetSender => .shared
  | .mSetSender => .exclusive
  | .mSetName => .shared
  | .mSetLevel => .shared
  | .mSendPanic => .shared
  | .mSendFatal => .shared

/-- The annotating sender of send/annotating.go: an inner sender and a
fixed annotation mapping (the Go map is embedded as an association
list fixing one iteration order). -/
structure AnnotatingSender where
  inner : Sender
  annotations : List (String × String)

/-- The annotation loop of annotatingSender.Send: annotate the composer
with every pair of the mapping, collecting the error strings of the
failed annotations in order. -/
def annotateAll (m : Composer) : List (String × String) → Option (Composer × List String)
  | [] => some (m, [])
  | (k, v) :: rest =>
    match m.annotateM k v with
    | none => none
    | some (e, m1, _) =>
      match annotateAll m1 rest with
      | none => none
      | some (m2, errs) => some (m2, e.toList ++ errs)

/-- annotatingSender.Send from send/annotating.go: return without
sending when the inner sender's level rejects the composer; otherwise
annotate with every pair of the mapping, and when at least one
annotation failed, hand the failures, joined into one error, to the
error handler once; finally forward the composer to the inner sender.
The returned list records the error handler invocations. -/
def AnnotatingSender.Send (s : AnnotatingSender) (m : Composer) :
    Option (AnnotatingSender × List String) :=
  match s.inner.Level.ShouldLogC m with
  | none => none
  | some (ok, m1, _) =>
    if !ok then some (s, [])
    else
      match annotateAll m1 s.annotations with
      | none => none
      | some (m2, errs) =>
        let handled := if errs.length > 0
          then [String.intercalate (";" ++ String.singleton (Char.ofNat 10)) errs]
          else []
        some ({ s with inner := s.inner.send m2 }, handled)

/-- One external operation on a composer: the four resolving accessors
of the Composer contract plus SetPriority (which never resolves). -/
inductive LazyOp where
  | opString
  | opRaw
  | opLoggable
  | opAnnotate (k v : String)
  | opSetPriority (p : Priority)

/-- Whether an operation is one of the four resolving accessors
String, Raw, Loggable, Annotate. -/
def LazyOp.isAccessor : LazyOp → Bool
  | .opSetPriority _ => false
  | _ => true

/-- Whether a trace contains any of the four resolving accessors. -/
def hasAccessor (ops : List LazyOp) : Bool := ops.any LazyOp.isAccessor

/-- Run one operation, keeping the new state and the number of
invocations of the composer's own wrapped producer. -/
def runOp (c : Composer) : LazyOp → Option (Composer × Nat)
  | .opString =>
    match c.stringM with
    | none => none
    | some (_, c1, n) => some (c1, n)
  | .opRaw =>
    match c.rawM with
    | none => none
    | some (_, c1, n) => some (c1, n)
  | .opLoggable =>
    match c.loggableM with
    | none => none
    | some (_, c1, n) => some (c1, n)
  | .opAnnotate k v =>
    match c.annotateM k v with
    | none => none
    | some (_, c1, n) => some (c1, n)
  | .opSetPriority p => some ((c.setPriority p).1, 0)

/-- Run a trace of operations, summing the producer invocations. -/
def runOps (c : Composer) : List LazyOp → Option (Composer × Nat)
  | [] => some (c, 0)
  | op :: rest =>
    match runOp c op with
    | none => none
    | some (c1, n) =>
      match runOps c1 rest with
      | none => none
      | some (c2, m) => some (c2, n + m)

/-- How many producer invocations a lazy wrapper may still perform: one
when it holds a producer and has not resolved yet, zero otherwise. -/
def pend (fnPresent : Bool) : Option Composer → Nat
  | some _ => 0
  | none => if fnPresent then 1 else 0

/-- The invocation budget of a composer: concrete variants never invoke
anything; a lazy wrapper may invoke its producer while it is unresolved. -/
def budget : Composer → Nat
  | .stringMessage _ _ _ => 0
  | .fieldMessage _ _ => 0
  | .simpleFieldMessage _ _ => 0
  | .errorMessage _ _ _ => 0
  | .fieldsProducer _ fp cached => pend fp.isSome cached
  | .composerProducer _ cp cached => pend cp.isSome cached
  | .errorProducer _ ep cached => pend ep.isSome cached

theorem budget_le_one (c : Composer) : budget c ≤ 1 := by
  match c with
  | .stringMessage p s ctx => simp [budget]
  | .fieldMessage p fs => simp [budget]
  | .simpleFieldMessage p fs => simp [budget]
  | .errorMessage p e ctx => simp [budget]
  | .fieldsProducer p fp cached =>
    simp [budget]; cases cached <;> simp [pend] <;> split <;> simp
  | .composerProducer p cp cached =>
    simp [budget]; cases cached <;> simp [pend] <;> split <;> simp
  | .errorProducer p ep cached =>
    simp [budget]; cases cached <;> simp [pend] <;> split <;> simp

theorem budget_setPriority (c : Composer) (p : Priority) :
    budget (c.setPriority p).1 = budget c := by
  by_cases h : p.IsValid
  all_goals match c with
  | .stringMessage p0 s ctx => simp [Composer.setPriority, h, budget]
  | .fieldMessage p0 fs => simp [Composer.setPriority, h, budget]
  | .simpleFieldMessage p0 fs => simp [Composer.setPriority, h, budget]
  | .errorMessage p0 e ctx => simp [Composer.setPriority, h, budget]
  | .fieldsProducer p0 fp none => simp [Composer.setPriority, h, budget]
  | .fieldsProducer p0 fp (some c0) => simp [Composer.setPriority, h, budget, pend]
  | .composerProducer p0 cp none => simp [Composer.setPriority, h, budget]
  | .composerProducer p0 cp (some c0) => simp [Composer.setPriority, h, budget, pend]
  | .errorProducer p0 ep none => simp [Composer.setPriority, h, budget]
  | .errorProducer p0 ep (some c0) => simp [Composer.setPriority, h, budget, pend]

theorem stringM_budget (c : Composer) (s : String) (c1 : Composer) (n : Nat)
    (h : c.stringM = some (s, c1, n)) : n + budget c1 ≤ budget c := by
  match c with
  | .stringMessage p s0 ctx =>
    simp [Composer.stringM] at h
    obtain ⟨h1, h2, h3⟩ := h
    subst h2; subst h3
    simp [budget]
  | .fieldMessage p fs =>
    simp [Composer.stringM] at h
    obtain ⟨h1, h2, h3⟩ := h
    subst h2; subst h3
    simp [budget]
  | .simpleFieldMessage p fs =>
    simp [Composer.stringM] at h
    obtain ⟨h1, h2, h3⟩ := h
    subst h2; subst h3
    simp [budget]
  | .errorMessage p e ctx =>
    simp [Composer.stringM] at h
    obtain ⟨h1, h2, h3⟩ := h
    subst h2; subst h3
    simp [budget]
  | .fieldsProducer p fp (some c0) =>
    rcases h0 : c0.stringM with _ | ⟨r2, c2, n2⟩ <;> simp [Composer.stringM, h0] at h
    obtain ⟨h1, h2, h3⟩ := h
    subst h2; subst h3
    simp [budget, pend]
  | .fieldsProducer p none none =>
    rcases h0 : (NewFields p ([] : Fields)).stringM with _ | ⟨r2, c2, n2⟩ <;> simp [Composer.stringM, h0] at h
    obtain ⟨h1, h2, h3⟩ := h
    subst h2; subst h3
    simp [budget, pend]
  | .fieldsProducer p (some v) none =>
    rcases h0 : (NewFields p v).stringM with _ | ⟨r2, c2, n2⟩ <;> simp [Composer.stringM, h0] at h
    obtain ⟨h1, h2, h3⟩ := h
    subst h2; subst h3
    simp [budget, pend]
  | .composerProducer p0 none none =>
    simp [Composer.stringM] at h
  | .composerProducer p (some none) none =>
    rcases h0 : (NewSimpleFields p ([] : Fields)).stringM with _ | ⟨r2, c2, n2⟩ <;> simp [Composer.stringM, h0] at h
    obtain ⟨h1, h2, h3⟩ := h
    subst h2; subst h3
    simp [budget, pend]
  | .composerProducer p (some (some c0)) none =>
    rcases h0 : ((c0.setPriority p).1).stringM with _ | ⟨r2, c2, n2⟩ <;> simp [Composer.stringM, h0] at h
    obtain ⟨h1, h2, h3⟩ := h
    subst h2; subst h3
    simp [budget, pend]
  | .composerProducer p cp (some c0) =>
    rcases h0 : c0.stringM with _ | ⟨r2, c2, n2⟩ <;> simp [Composer.stringM, h0] at h
    obtain ⟨h1, h2, h3⟩ := h
    subst h2; subst h3
    simp [budget, pend]
  | .errorProducer p0 none none =>
    simp [Composer.stringM] at h
  | .errorProducer p (some v) none =>
    rcases h0 : (NewErrorMessage p v).stringM with _ | ⟨r2, c2, n2⟩ <;> simp [Composer.stringM, h0] at h
    obtain ⟨h1, h2, h3⟩ := h
    subst h2; subst h3
    simp [budget, pend]
  | .errorProducer p ep (some c0) =>
    rcases h0 : c0.stringM with _ | ⟨r2, c2, n2⟩ <;> simp [Composer.stringM, h0] at h
    obtain ⟨h1, h2, h3⟩ := h
    subst h2; subst h3
    simp [budget, pend]

theorem rawM_budget (c : Composer) (r : RawRep) (c1 : Composer) (n : Nat)
    (h : c.rawM = some (r, c1, n)) : n + budget c1 ≤ budget c := by
  match c with
  | .stringMessage p s0 ctx =>
    simp [Composer.rawM] at h
    obtain ⟨h1, h2, h3⟩ := h
    subst h2; subst h3
    simp [budget]
  | .fieldMessage p fs =>
    simp [Composer.rawM] at h
    obtain ⟨h1, h2, h3⟩ := h
    subst h2; subst h3
    simp [budget]
  | .simpleFieldMessage p fs =>
    simp [Composer.rawM] at h
    obtain ⟨h1, h2, h3⟩ := h
    subst h2; subst h3
    simp [budget]
  | .errorMessage p e ctx =>
    simp [Composer.rawM] at h
    obtain ⟨h1, h2, h3⟩ := h
    subst h2; subst h3
    simp [budget]
  | .fieldsProducer p fp (some c0) =>
    rcases h0 : c0.rawM with _ | ⟨r2, c2, n2⟩ <;> simp [Composer.rawM, h0] at h
    obtain ⟨h1, h2, h3⟩ := h
    subst h2; subst h3
    simp [budget, pend]
  | .fieldsProducer p none none =>
    rcases h0 : (NewFields p ([] : Fields)).rawM with _ | ⟨r2, c2, n2⟩ <;> simp [Composer.rawM, h0] at h
    obtain ⟨h1, h2, h3⟩ := h
    subst h2; subst h3
    simp [budget, pend]
  | .fieldsProducer p (some v) none =>
    rcases h0 : (NewFields p v).rawM with _ | ⟨r2, c2, n2⟩ <;> simp [Composer.rawM, h0] at h
    obtain ⟨h1, h2, h3⟩ := h
    subst h2; subst h3
    simp [budget, pend]
  | .composerProducer p0 none none =>
    simp [Composer.rawM] at h
  | .composerProducer p (some none) none =>
    rcases h0 : (NewSimpleFields p ([] : Fields)).rawM with _ | ⟨r2, c2, n2⟩ <;> simp [Composer.rawM, h0] at h
    obtain ⟨h1, h2, h3⟩ := h
    subst h2; subst h3
    simp [budget, pend]
  | .composerProducer p (some (some c0)) none =>
    rcases h0 : ((c0.setPriority p).1).rawM with _ | ⟨r2, c2, n2⟩ <;> simp [Composer.rawM, h0] at h
    obtain ⟨h1, h2, h3⟩ := h
    subst h2; subst h3
    simp [budget, pend]
  | .composerProducer p cp (some c0) =>
    rcases h0 : c0.rawM with _ | ⟨r2, c2, n2⟩ <;> simp [Composer.rawM, h0] at h
    obtain ⟨h1, h2, h3⟩ := h
    subst h2; subst h3
    simp [budget, pend]
  | .errorProducer p0 none none =>
    simp [Composer.rawM] at h
  | .errorProducer p (some v) none =>
    rcases h0 : (NewErrorMessage p v).rawM with _ | ⟨r2, c2, n2⟩ <;> simp [Composer.rawM, h0] at h
    obtain ⟨h1, h2, h3⟩ := h
    subst h2; subst h3
    simp [budget, pend]
  | .errorProducer p ep (some c0) =>
    rcases h0 : c0.rawM with _ | ⟨r2, c2, n2⟩ <;> simp [Composer.rawM, h0] at h
    obtain ⟨h1, h2, h3⟩ := h
    subst h2; subst h3
    simp [budget, pend]

theorem loggableM_budget (c : Composer) (b : Bool) (c1 : Composer) (n : Nat)
    (h : c.loggableM = some (b, c1, n)) : n + budget c1 ≤ budget c := by
  match c with
  | .stringMessage p s0 ctx =>
    simp [Composer.loggableM] at h
    obtain ⟨h1, h2, h3⟩ := h
    subst h2; subst h3
    simp [budget]
  | .fieldMessage p fs =>
    simp [Composer.loggableM] at h
    obtain ⟨h1, h2, h3⟩ := h
    subst h2; subst h3
    simp [budget]
  | .simpleFieldMessage p fs =>
    simp [Composer.loggableM] at h
    obtain ⟨h1, h2, h3⟩ := h
    subst h2; subst h3
    simp [budget]
  | .errorMessage p e ctx =>
    simp [Composer.loggableM] at h
    obtain ⟨h1, h2, h3⟩ := h
    subst h2; subst h3
    simp [budget]
  | .fieldsProducer p none cached =>
    simp [Composer.loggableM] at h
    obtain ⟨h1, h2, h3⟩ := h
    subst h2; subst h3
    simp [budget]
  | .fieldsProducer p (some v) (some c0) =>
    rcases h0 : c0.loggableM with _ | ⟨r2, c2, n2⟩ <;> simp [Composer.loggableM, h0] at h
    obtain ⟨h1, h2, h3⟩ := h
    subst h2; subst h3
    simp [budget, pend]
  | .fieldsProducer p (some v) none =>
    rcases h0 : (NewFields p v).loggableM with _ | ⟨r2, c2, n2⟩ <;> simp [Composer.loggableM, h0] at h
    obtain ⟨h1, h2, h3⟩ := h
    subst h2; subst h3
    simp [budget, pend]
  | .composerProducer p none cached =>
    simp [Composer.loggableM] at h
    obtain ⟨h1, h2, h3⟩ := h
    subst h2; subst h3
    simp [budget]
  | .composerProducer p (some v) (some c0) =>
    rcases h0 : c0.loggableM with _ | ⟨r2, c2, n2⟩ <;> simp [Composer.loggableM, h0] at h
    obtain ⟨h1, h2, h3⟩ := h
    subst h2; subst h3
    simp [budget, pend]
  | .composerProducer p (some none) none =>
    rcases h0 : (NewSimpleFields p ([] : Fields)).loggableM with _ | ⟨r2, c2, n2⟩ <;> simp [Composer.loggableM, h0] at h
    obtain ⟨h1, h2, h3⟩ := h
    subst h2; subst h3
    simp [budget, pend]
  | .composerProducer p (some (some c0)) none =>
    rcases h0 : ((c0.setPriority p).1).loggableM with _ | ⟨r2, c2, n2⟩ <;> simp [Composer.loggableM, h0] at h
    obtain ⟨h1, h2, h3⟩ := h
    subst h2; subst h3
    simp [budget, pend]
  | .errorProducer p none cached =>
    simp [Composer.loggableM] at h
    obtain ⟨h1, h2, h3⟩ := h
    subst h2; subst h3
    simp [budget]
  | .errorProducer p (some v) (some c0) =>
    rcases h0 : c0.loggableM with _ | ⟨r2, c2, n2⟩ <;> simp [Composer.loggableM, h0] at h
    obtain ⟨h1, h2, h3⟩ := h
    subst h2; subst h3
    simp [budget, pend]
  | .errorProducer p (some v) none =>
    rcases h0 : (NewErrorMessage p v).loggableM with _ | ⟨r2, c2, n2⟩ <;> simp [Composer.loggableM, h0] at h
    obtain ⟨h1, h2, h3⟩ := h
    subst h2; subst h3
    simp [budget, pend]

theorem annotateM_budget (c : Composer) (k v0 : String) (e1 : Option String) (c1 : Composer) (n : Nat)
    (h : c.annotateM k v0 = some (e1, c1, n)) : n + budget c1 ≤ budget c := by
  match c with
  | .stringMessage p s0 ctx =>
    by_cases hk : fieldsHasKey ctx k = true
    all_goals simp [Composer.annotateM, hk] at h
    all_goals (obtain ⟨h1, h2, h3⟩ := h; subst h2; subst h3; simp [budget])
  | .fieldMessage p fs =>
    by_cases hk : fieldsHasKey fs k = true
    all_goals simp [Composer.annotateM, hk] at h
    all_goals (obtain ⟨h1, h2, h3⟩ := h; subst h2; subst h3; simp [budget])
  | .simpleFieldMessage p fs =>
    by_cases hk : fieldsHasKey fs k = true
    all_goals simp [Composer.annotateM, hk] at h
    all_goals (obtain ⟨h1, h2, h3⟩ := h; subst h2; subst h3; simp [budget])
  | .errorMessage p e ctx =>
    by_cases hk : fieldsHasKey ctx k = true
    all_goals simp [Composer.annotateM, hk] at h
    all_goals (obtain ⟨h1, h2, h3⟩ := h; subst h2; subst h3; simp [budget])
  | .fieldsProducer p fp (some c0) =>
    rcases h0 : c0.annotateM k v0 with _ | ⟨r2, c2, n2⟩ <;> simp [Composer.annotateM, h0] at h
    obtain ⟨h1, h2, h3⟩ := h
    subst h2; subst h3
    simp [budget, pend]
  | .fieldsProducer p none none =>
    rcases h0 : (NewFields p ([] : Fields)).annotateM k v0 with _ | ⟨r2, c2, n2⟩ <;> simp [Composer.annotateM, h0] at h
    obtain ⟨h1, h2, h3⟩ := h
    subst h2; subst h3
    simp [budget, pend]
  | .fieldsProducer p (some v) none =>
    rcases h0 : (NewFields p v).annotateM k v0 with _ | ⟨r2, c2, n2⟩ <;> simp [Composer.annotateM, h0] at h
    obtain ⟨h1, h2, h3⟩ := h
    subst h2; subst h3
    simp [budget, pend]
  | .composerProducer p0 none none =>
    simp [Composer.annotateM] at h
  | .composerProducer p (some none) none =>
    rcases h0 : (NewSimpleFields p ([] : Fields)).annotateM k v0 with _ | ⟨r2, c2, n2⟩ <;> simp [Composer.annotateM, h0] at h
    obtain ⟨h1, h2, h3⟩ := h
    subst h2; subst h3
    simp [budget, pend]
  | .composerProducer p (some (some c0)) none =>
    rcases h0 : ((c0.setPriority p).1).annotateM k v0 with _ | ⟨r2, c2, n2⟩ <;> simp [Composer.annotateM, h0] at h
    obtain ⟨h1, h2, h3⟩ := h
    subst h2; subst h3
    simp [budget, pend]
  | .composerProducer p cp (some c0) =>
    rcases h0 : c0.annotateM k v0 with _ | ⟨r2, c2, n2⟩ <;> simp [Composer.annotateM, h0] at h
    obtain ⟨h1, h2, h3⟩ := h
    subst h2; subst h3
    simp [budget, pend]
  | .errorProducer p0 none none =>
    simp [Composer.annotateM] at h
  | .errorProducer p (some v) none =>
    rcases h0 : (NewErrorMessage p v).annotateM k v0 with _ | ⟨r2, c2, n2⟩ <;> simp [Composer.annotateM, h0] at h
    obtain ⟨h1, h2, h3⟩ := h
    subst h2; subst h3
    simp [budget, pend]
  | .errorProducer p ep (some c0) =>
    rcases h0 : c0.annotateM k v0 with _ | ⟨r2, c2, n2⟩ <;> simp [Composer.annotateM, h0] at h
    obtain ⟨h1, h2, h3⟩ := h
    subst h2; subst h3
    simp [budget, pend]
theorem runOp_budget (c : Composer) (op : LazyOp) (c1 : Composer) (n : Nat)
    (h : runOp c op = some (c1, n)) : n + budget c1 ≤ budget c := by
  cases op with
  | opString =>
    rcases h0 : c.stringM with _ | ⟨s, c2, n2⟩ <;> simp [runOp, h0] at h
    obtain ⟨h1, h2⟩ := h
    subst h1; subst h2
    exact stringM_budget c s c2 n2 h0
  | opRaw =>
    rcases h0 : c.rawM with _ | ⟨r, c2, n2⟩ <;> simp [runOp, h0] at h
    obtain ⟨h1, h2⟩ := h
    subst h1; subst h2
    exact rawM_budget c r c2 n2 h0
  | opLoggable =>
    rcases h0 : c.loggableM with _ | ⟨b, c2, n2⟩ <;> simp [runOp, h0] at h
    obtain ⟨h1, h2⟩ := h
    subst h1; subst h2
    exact loggableM_budget c b c2 n2 h0
  | opAnnotate k v =>
    rcases h0 : c.annotateM k v with _ | ⟨e1, c2, n2⟩ <;> simp [runOp, h0] at h
    obtain ⟨h1, h2⟩ := h
    subst h1; subst h2
    exact annotateM_budget c k v e1 c2 n2 h0
  | opSetPriority p =>
    simp [runOp] at h
    obtain ⟨h1, h2⟩ := h
    subst h1; subst h2
    simp [budget_setPriority]

theorem runOp_setPriority_zero (c : Composer) (p : Priority) (c1 : Composer) (n : Nat)
    (h : runOp c (.opSetPriority p) = some (c1, n)) : n = 0 := by
  simp [runOp] at h
  omega

theorem runOps_budget (ops : List LazyOp) : forall (c c2 : Composer) (N : Nat),
    runOps c ops = some (c2, N) -> N + budget c2 <= budget c := by
  induction ops with
  | nil =>
    intro c c2 N h
    simp [runOps] at h
    obtain ⟨h1, h2⟩ := h
    subst h1; subst h2
    simp
  | cons op rest ih =>
    intro c c2 N h
    rcases h0 : runOp c op with _ | ⟨c1, n⟩ <;> simp [runOps, h0] at h
    rcases h1 : runOps c1 rest with _ | ⟨c3, m⟩ <;> simp [h1] at h
    obtain ⟨h2, h3⟩ := h
    subst h2; subst h3
    have ha := runOp_budget c op c1 n h0
    have hb := ih c1 c3 m h1
    omega

theorem runOps_no_accessor (ops : List LazyOp) : forall (c c2 : Composer) (N : Nat),
    hasAccessor ops = false -> runOps c ops = some (c2, N) -> N = 0 := by
  induction ops with
  | nil =>
    intro c c2 N hacc h
    simp [runOps] at h
    omega
  | cons op rest ih =>
    intro c c2 N hacc h
    simp [hasAccessor, List.any_cons] at hacc
    rcases h0 : runOp c op with _ | ⟨c1, n⟩ <;> simp [runOps, h0] at h
    rcases h1 : runOps c1 rest with _ | ⟨c3, m⟩ <;> simp [h1] at h
    obtain ⟨h2, h3⟩ := h
    subst h2; subst h3
    have hop : n = 0 := by
      cases op with
      | opSetPriority p => exact runOp_setPriority_zero c p c1 n h0
      | opString => simp [LazyOp.isAccessor] at hacc
      | opRaw => simp [LazyOp.isAccessor] at hacc
      | opLoggable => simp [LazyOp.isAccessor] at hacc
      | opAnnotate k v => simp [LazyOp.isAccessor] at hacc
    have hrest : m = 0 := by
      apply ih c1 c3 m _ h1
      simp [hasAccessor]
      intro x hx
      exact hacc.2 x hx
    omega

/-- The three lazy producer wrapper shapes of message/function.go. -/
def isLazyProducer : Composer -> Bool
  | .fieldsProducer _ _ _ => true
  | .composerProducer _ _ _ => true
  | .errorProducer _ _ _ => true
  | _ => false

/-- A lazy wrapper that still holds an unresolved producer. -/
def unresolvedLazy : Composer -> Bool
  | .fieldsProducer _ (some _) none => true
  | .composerProducer _ (some _) none => true
  | .errorProducer _ (some _) none => true
  | _ => false

/-- The priority of the cached composer of a resolved lazy wrapper. -/
def cachedPriorityOf : Composer → Option Priority
  | .stringMessage _ _ _ => none
  | .fieldMessage _ _ => none
  | .simpleFieldMessage _ _ => none
  | .errorMessage _ _ _ => none
  | .fieldsProducer _ _ cached => cached.map Composer.priorityOf
  | .composerProducer _ _ cached => cached.map Composer.priorityOf
  | .errorProducer _ _ cached => cached.map Composer.priorityOf

/-- A sample sender, logger and annotating sender used to instantiate
the theorems below on concrete states. -/
def senderA : Sender := ⟨1, "a", ⟨.Info, .Info⟩, 0, none, []⟩

def senderB : Sender := ⟨2, "b", ⟨.Debug, .Debug⟩, 0, none, []⟩

def gripA : Grip := ⟨senderA, .Info⟩

def annSenderEx : AnnotatingSender := ⟨senderA, [("k", "v")]⟩

/-- C1: for every sender level configuration, ShouldLog rejects every
message reporting not-loggable; accepts every loggable message whose
effective priority (the message priority, or the configured Default when
that is Invalid) is Emergency, against any threshold; and rejects every
loggable message whose effective priority is below the Threshold and is
not Emergency. -/
theorem shouldLog_threshold_policy (l : LevelInfo) (loggable : Bool) (p : Priority) :
    (loggable = false → l.ShouldLog loggable p = false)
    ∧ (loggable = true → (if p = Priority.Invalid then l.Default else p) = Priority.Emergency →
        l.ShouldLog loggable p = true)
    ∧ (loggable = true → (if p = Priority.Invalid then l.Default else p) ≠ Priority.Emergency →
        (if p = Priority.Invalid then l.Default else p).toNat < l.Threshold.toNat →
        l.ShouldLog loggable p = false) := by
  refine ⟨?_, ?_, ?_⟩
  · intro h
    simp [LevelInfo.ShouldLog, h]
  · intro h he
    simp [LevelInfo.ShouldLog, h, he]
  · intro h he hlt
    simp [LevelInfo.ShouldLog, h, he]
    omega

/-- C1 witness: a loggable Debug message against an Info threshold is
rejected. -/
theorem shouldLog_threshold_policy_witness :
    LevelInfo.ShouldLog ⟨.Info, .Info⟩ true .Debug = false :=
  (shouldLog_threshold_policy ⟨.Info, .Info⟩ true .Debug).2.2 rfl (by decide) (by decide)

/-- C3 counterexample: the with-level conversion applied to a composer
whose current priority is Invalid leaves the priority Invalid instead of
setting it to the given priority, contrary to the claim. -/
theorem convert_withLevel_counterexample :
    (ConvertToComposerWithLevel .Info (.composer (NewFields .Invalid [("a", "b")]))).priorityOf
      = Priority.Invalid
    ∧ Priority.Invalid ≠ Priority.Info := by
  exact ⟨rfl, by decide⟩

/-- C3 amended: the with-level conversion leaves a composer whose
priority is Invalid entirely unchanged, and sets the priority to the
given (valid) priority exactly when the current priority is a valid
level; the plain conversion always sets the priority when the given
priority is valid. -/
theorem convert_priority_policy (c : Composer) (p : Priority) :
    (c.priorityOf = Priority.Invalid → ConvertToComposerWithLevel p (.composer c) = c)
    ∧ (c.priorityOf ≠ Priority.Invalid → p.IsValid = true →
        (ConvertToComposerWithLevel p (.composer c)).priorityOf = p)
    ∧ (p.IsValid = true → (ConvertToComposer p (.composer c)).priorityOf = p) := by
  refine ⟨?_, ?_, ?_⟩
  · intro h
    simp [ConvertToComposerWithLevel, convert, h]
  · intro h hv
    simp [ConvertToComposerWithLevel, convert, h, priorityOf_setPriority c p hv]
  · intro hv
    simp [ConvertToComposer, convert, priorityOf_setPriority c p hv]

/-- C3 witness: with-level conversion overrides the priority of a
composer already carrying a valid level. -/
theorem convert_priority_policy_witness :
    (ConvertToComposerWithLevel .Info (.composer (NewDefaultMessage .Debug "m"))).priorityOf
      = Priority.Info :=
  (convert_priority_policy (NewDefaultMessage .Debug "m") .Info).2.1 (by decide) (by decide)

/-- C9 counterexample: SetName acquires the shared (read) side of the
logger lock, not the exclusive side the claim states. -/
theorem gripLock_setName_counterexample :
    gripLockMode .mSetName = .shared ∧ LockMode.shared ≠ LockMode.exclusive := by
  decide

/-- C9 amended: Send, Name and GetSender acquire the shared side, and so
do SetName and SetLevel (which only read the sender reference,
delegating the mutation to the sender itself); only SetSender acquires
the exclusive side, and is thereby mutually exclusive with all of
them. -/
theorem gripLock_modes :
    gripLockMode .mSend = .shared
    ∧ gripLockMode .mName = .shared
    ∧ gripLockMode .mGetSender = .shared
    ∧ gripLockMode .mSetName = .shared
    ∧ gripLockMode .mSetLevel = .shared
    ∧ gripLockMode .mSetSender = .exclusive
    ∧ gripLockMode .mSendPanic = .shared
    ∧ gripLockMode .mSendFatal = .shared := by
  decide

/-- C10 counterexample: a composer-producer wrapper built by the Make
constructor (wrapper level Invalid) resolves to a cached composer that
keeps the produced priority (Info), different from the wrapper's
priority (Invalid), contrary to the claim. -/
theorem composerProducer_priority_counterexample :
    (MakeComposerProducerMessage (some (some (NewDefaultMessage .Info "x")))).resolveM
      = some (.composerProducer .Invalid (some (some (NewDefaultMessage .Info "x")))
          (some (NewDefaultMessage .Info "x")), 1)
    ∧ cachedPriorityOf (.composerProducer .Invalid (some (some (NewDefaultMessage .Info "x")))
          (some (NewDefaultMessage .Info "x"))) = some Priority.Info
    ∧ (MakeComposerProducerMessage (some (some (NewDefaultMessage .Info "x")))).priorityOf
      = Priority.Invalid
    ∧ Priority.Info ≠ Priority.Invalid := by
  refine ⟨rfl, rfl, rfl, by decide⟩

/-- C10 amended: on resolution the fields-producer and error-producer
wrappers always construct their cached composer at the wrapper's level;
the composer-producer wrapper overrides the produced composer's priority
with the wrapper's level whenever that level is a valid priority (when
it is Invalid, the produced composer keeps its own priority, as the
counterexample shows). -/
theorem resolution_cached_priority :
    (∀ (p : Priority) (fp : Option Fields) (c1 : Composer) (k : Nat),
        (Composer.fieldsProducer p fp none).resolveM = some (c1, k) →
        cachedPriorityOf c1 = some p)
    ∧ (∀ (p : Priority) (v : Option String) (c1 : Composer) (k : Nat),
        (Composer.errorProducer p (some v) none).resolveM = some (c1, k) →
        cachedPriorityOf c1 = some p)
    ∧ (∀ (p : Priority) (v : Option Composer) (c1 : Composer) (k : Nat),
        p.IsValid = true →
        (Composer.composerProducer p (some v) none).resolveM = some (c1, k) →
        cachedPriorityOf c1 = some p) := by
  refine ⟨?_, ?_, ?_⟩
  · intro p fp c1 k h
    cases fp with
    | none =>
      simp [Composer.resolveM] at h
      simp [← h.1, cachedPriorityOf, NewFields, Composer.priorityOf]
    | some v =>
      simp [Composer.resolveM] at h
      simp [← h.1, cachedPriorityOf, NewFields, Composer.priorityOf]
  · intro p v c1 k h
    simp [Composer.resolveM] at h
    simp [← h.1, cachedPriorityOf, NewErrorMessage, Composer.priorityOf]
  · intro p v c1 k hv h
    cases v with
    | none =>
      simp [Composer.resolveM] at h
      simp [← h.1, cachedPriorityOf, NewSimpleFields, Composer.priorityOf]
    | some c0 =>
      simp [Composer.resolveM] at h
      simp [← h.1, cachedPriorityOf, priorityOf_setPriority c0 p hv]

/-- C10 witness: a composer-producer wrapper at Error level resolves a
produced Debug-level composer to the wrapper's Error level. -/
theorem resolution_cached_priority_witness :
    cachedPriorityOf (.composerProducer .Error (some (some (NewDefaultMessage .Debug "y")))
        (some (NewDefaultMessage .Error "y"))) = some Priority.Error :=
  resolution_cached_priority.2.2 .Error (some (NewDefaultMessage .Debug "y"))
    (.composerProducer .Error (some (some (NewDefaultMessage .Debug "y")))
      (some (NewDefaultMessage .Error "y"))) 1 (by decide) (by rfl)

/-- C5: when SetSender is given a sender and both configuration steps
succeed (the current LevelInfo is valid, so copying it onto the new
sender succeeds, and closing the current sender succeeds), the call
returns no error, the adopted sender carries the pre-swap sender's name
and LevelInfo, the logger's current sender is the new one, and the
pre-swap sender received exactly one Close call. -/
theorem setSender_success (g : Grip) (s : Sender)
    (hlv : g.impl.levelInfo.Valid = true) (hcl : g.impl.closeErr = none) :
    (g.SetSender (some s)).err = none
    ∧ (g.SetSender (some s)).grip.impl.name = g.impl.name
    ∧ (g.SetSender (some s)).grip.impl.levelInfo = g.impl.levelInfo
    ∧ (g.SetSender (some s)).grip.impl.id = s.id
    ∧ (g.SetSender (some s)).old.id = g.impl.id
    ∧ (g.SetSender (some s)).old.closeCalls = g.impl.closeCalls + 1 := by
  simp [Grip.SetSender, Sender.SetLevel, Sender.Level, hlv, Sender.Close, hcl,
    Sender.SetName]

/-- C5 witness: swapping a fresh sender into the sample logger. -/
theorem setSender_success_witness :
    (gripA.SetSender (some senderB)).err = none
    ∧ (gripA.SetSender (some senderB)).grip.impl.name = gripA.impl.name
    ∧ (gripA.SetSender (some senderB)).grip.impl.levelInfo = gripA.impl.levelInfo
    ∧ (gripA.SetSender (some senderB)).grip.impl.id = senderB.id
    ∧ (gripA.SetSender (some senderB)).old.id = gripA.impl.id
    ∧ (gripA.SetSender (some senderB)).old.closeCalls = gripA.impl.closeCalls + 1 :=
  setSender_success gripA senderB (by decide) (by rfl)

/-- C6: SetSender with a nil sender returns the configuration error and
leaves the logger state entirely unchanged; more generally, whenever
SetSender returns an error the logger still refers to the pre-call
sender. -/
theorem setSender_error_keeps_sender (g : Grip) :
    ((g.SetSender none).err = some "cannot set the sender to nil"
      ∧ (g.SetSender none).grip = g)
    ∧ (∀ (s? : Option Sender) (e : String),
        (g.SetSender s?).err = some e → (g.SetSender s?).grip.impl.id = g.impl.id) := by
  constructor
  · exact ⟨rfl, rfl⟩
  · intro s? e h
    match s? with
    | none => rfl
    | some s =>
      rcases h1 : s.SetLevel g.impl.Level with ⟨e1, s1⟩
      cases e1 with
      | some e2 => simp [Grip.SetSender, h1]
      | none =>
        cases hce : g.impl.closeErr with
        | some e3 => simp [Grip.SetSender, h1, Sender.Close, hce]
        | none => simp [Grip.SetSender, h1, Sender.Close, hce] at h

/-- C6 witness: SetSender(nil) on the sample logger. -/
theorem setSender_error_keeps_sender_witness :
    (gripA.SetSender none).grip.impl.id = gripA.impl.id :=
  (setSender_error_keeps_sender gripA).2 none "cannot set the sender to nil" rfl

/-- C7: a message dispatched through EmergencyPanic or EmergencyFatal
that the sender's level accepts is handed to the sender's Send (it
appears at the end of the sent record) and the call aborts (panic,
respectively process exit); a rejected message is neither sent nor
aborts, and the call returns with the logger unchanged. -/
theorem emergency_abort_ordering (g : Grip) (msg : Input) (pass : Bool) (m1 : Composer)
    (n : Nat)
    (h : g.impl.Level.ShouldLogC (ConvertToComposer .Emergency msg) = some (pass, m1, n)) :
    (pass = true →
      g.EmergencyPanic msg = some (.panicked, { g with impl := g.impl.send m1 })
      ∧ g.EmergencyFatal msg = some (.exited, { g with impl := g.impl.send m1 })
      ∧ (g.impl.send m1).sent = g.impl.sent ++ [m1])
    ∧ (pass = false →
      g.EmergencyPanic msg = some (.returned, g)
      ∧ g.EmergencyFatal msg = some (.returned, g)) := by
  constructor
  · intro hp
    subst hp
    refine ⟨?_, ?_, ?_⟩
    · simp [Grip.EmergencyPanic, Grip.sendPanic, h]
    · simp [Grip.EmergencyFatal, Grip.sendFatal, h]
    · simp [Sender.send]
  · intro hp
    subst hp
    constructor
    · simp [Grip.EmergencyPanic, Grip.sendPanic, h]
    · simp [Grip.EmergencyFatal, Grip.sendFatal, h]

/-- C7 witness: an Emergency string message on the sample logger is sent
and the call aborts. -/
theorem emergency_abort_ordering_witness :
    gripA.EmergencyPanic (.str "boom")
      = some (.panicked, { gripA with impl := gripA.impl.send (NewDefaultMessage .Emergency "boom") })
    ∧ gripA.EmergencyFatal (.str "boom")
      = some (.exited, { gripA with impl := gripA.impl.send (NewDefaultMessage .Emergency "boom") })
    ∧ (gripA.impl.send (NewDefaultMessage .Emergency "boom")).sent
      = gripA.impl.sent ++ [NewDefaultMessage .Emergency "boom"] :=
  (emergency_abort_ordering gripA (.str "boom") true (NewDefaultMessage .Emergency "boom") 0
    (by simp [Sender.Level, LevelInfo.ShouldLogC, ConvertToComposer, convert,
      NewDefaultMessage, Composer.loggableM, Composer.priorityOf, LevelInfo.ShouldLog,
      gripA, senderA])).1 rfl

/-- C8: when the inner sender's level accepts a composer, the
annotating sender attempts every annotation of its mapping, joins the
errors of the failed ones into a single aggregated error handed to the
error handler exactly once (and does not invoke the handler when none
failed), and still forwards the composer to the inner sender's Send. -/
theorem annotating_send_aggregates (s : AnnotatingSender) (m m1 : Composer) (n : Nat)
    (hok : s.inner.Level.ShouldLogC m = some (true, m1, n))
    (m2 : Composer) (errs : List String)
    (hann : annotateAll m1 s.annotations = some (m2, errs)) :
    s.Send m = some ({ s with inner := s.inner.send m2 },
        if errs.length > 0
          then [String.intercalate (";" ++ String.singleton (Char.ofNat 10)) errs]
          else [])
    ∧ (s.inner.send m2).sent = s.inner.sent ++ [m2]
    ∧ (errs = [] →
        (if errs.length > 0
          then [String.intercalate (";" ++ String.singleton (Char.ofNat 10)) errs]
          else ([] : List String)) = [])
    ∧ (errs ≠ [] →
        (if errs.length > 0
          then [String.intercalate (";" ++ String.singleton (Char.ofNat 10)) errs]
          else ([] : List String))
          = [String.intercalate (";" ++ String.singleton (Char.ofNat 10)) errs]) := by
  refine ⟨?_, ?_, ?_, ?_⟩
  · simp [AnnotatingSender.Send, hok, hann]
  · simp [Sender.send]
  · intro he
    simp [he]
  · intro he
    have : errs.length > 0 := List.length_pos.mpr he
    simp [this]

/-- C8 witness: the spec scenario, a mapping with key k on a composer
already carrying k: the underlying send still occurs and the handler is
invoked once with an error mentioning k. -/
theorem annotating_send_aggregates_witness :
    annSenderEx.Send (NewFields .Info [("k", "x")])
      = some ({ annSenderEx with inner := annSenderEx.inner.send (NewFields .Info [("k", "x")]) },
          [dupKeyErr "k"])
    ∧ (annSenderEx.inner.send (NewFields .Info [("k", "x")])).sent
      = annSenderEx.inner.sent ++ [NewFields .Info [("k", "x")]] := by
  have h := annotating_send_aggregates annSenderEx (NewFields .Info [("k", "x")])
    (NewFields .Info [("k", "x")]) 0
    (by simp [annSenderEx, senderA, Sender.Level, LevelInfo.ShouldLogC, NewFields,
      Composer.loggableM, Composer.priorityOf, LevelInfo.ShouldLog, Priority.toNat])
    (NewFields .Info [("k", "x")]) [dupKeyErr "k"]
    (by simp [annSenderEx, annotateAll, NewFields, Composer.annotateM, fieldsHasKey])
  refine ⟨?_, h.2.1⟩
  have h1 := h.1
  simpa [String.intercalate] using h1

/-- C2: across any trace of String, Raw, Loggable, Annotate and
SetPriority operations, a lazy-producer composer invokes its wrapped
producer at most once, and not at all when the trace contains none of
the four accessors; and converting any of the three producer-function
shapes builds the corresponding wrapper unresolved, storing the producer
untouched — so conversion itself never invokes it. -/
theorem lazy_producer_invocation_bound :
    (∀ (c : Composer) (ops : List LazyOp) (c2 : Composer) (N : Nat),
        isLazyProducer c = true → runOps c ops = some (c2, N) →
        N ≤ 1 ∧ (hasAccessor ops = false → N = 0))
    ∧ (∀ (p : Priority) (b : Bool) (f : Option Fields),
        convert p (.fieldsFn f) b = .fieldsProducer p f none)
    ∧ (∀ (p : Priority) (b : Bool) (f : Option (Option Composer)),
        convert p (.composerFn f) b = .composerProducer p f none)
    ∧ (∀ (p : Priority) (b : Bool) (f : Option (Option String)),
        convert p (.errorFn f) b = .errorProducer p f none) := by
  refine ⟨?_, ?_, ?_, ?_⟩
  · intro c ops c2 N hl hrun
    have h1 := runOps_budget ops c c2 N hrun
    have h2 := budget_le_one c
    constructor
    · omega
    · intro hacc
      exact runOps_no_accessor ops c c2 N hacc hrun
  · intro p b f; rfl
  · intro p b f; rfl
  · intro p b f; rfl

/-- C2 witness: a trace on a fresh fields-producer wrapper consisting of
a priority change followed by two String calls invokes the producer
exactly once. -/
theorem lazy_producer_invocation_bound_witness :
    (1 : Nat) ≤ 1
    ∧ (hasAccessor [LazyOp.opSetPriority .Debug, LazyOp.opString, LazyOp.opString] = false →
        (1 : Nat) = 0) :=
  lazy_producer_invocation_bound.1 (NewFieldsProducerMessage .Info (some [("a", "b")]))
    [LazyOp.opSetPriority .Debug, LazyOp.opString, LazyOp.opString]
    (.fieldsProducer .Debug (some [("a", "b")]) (some (.fieldMessage .Debug [("a", "b")])))
    1 rfl
    (by simp [NewFieldsProducerMessage, runOps, runOp, Composer.setPriority,
      Priority.IsValid, Composer.stringM, NewFields])

/-- C4: evaluation at the claim's inputs.  A nil-producer
composer-producer or error-producer panics on String (a nil Go function
call inside resolve), contradicting the claim, while Loggable
short-circuits to false on all three variants, and the fields-producer
variant resolves to an empty, not-loggable field message without
invoking anything, as the claim states. -/
theorem nil_producer_resolution_eval :
    (MakeComposerProducerMessage none).stringM = none
    ∧ (MakeErrorProducerMessage none).stringM = none
    ∧ (MakeComposerProducerMessage none).loggableM
        = some (false, MakeComposerProducerMessage none, 0)
    ∧ (MakeErrorProducerMessage none).loggableM
        = some (false, MakeErrorProducerMessage none, 0)
    ∧ (MakeFieldsProducerMessage none).loggableM
        = some (false, MakeFieldsProducerMessage none, 0)
    ∧ (MakeFieldsProducerMessage none).stringM
        = some ("", .fieldsProducer .Invalid none (some (NewFields .Invalid [])), 0)
    ∧ (NewFields .Invalid ([] : Fields)).loggableM
        = some (false, NewFields .Invalid ([] : Fields), 0) := by
  refine ⟨?_, ?_, ?_, ?_, ?_, ?_, ?_⟩ <;>
    simp [MakeComposerProducerMessage, MakeErrorProducerMessage, MakeFieldsProducerMessage,
      Composer.stringM, Composer.loggableM, NewFields, renderFields, String.intercalate]

end Grip
